import Mathlib

/-!
# Verification of the fipsy peer-discovery and publish pipeline

Shallow embedding of the fipsy repository (`src/fipsy/`): the SQLite state
store (`db.py`), the IPFS adapter surface (`ipfs.py`), the peer-index
fetchers and publish orchestrator of `commands.py` and `tui/workers.py`.

Modelling conventions:
* External `ipfs` binary invocations are oracles supplied through an
  environment structure; each oracle returns the value the call would
  produce or the (caught or uncaught) failure mode the source handles.
* Python exceptions are the `PyErr` type; a function that can raise an
  uncaught exception returns `Except PyErr _`.
* `json.loads` / `json.dumps` are the external `json` library; they are
  modelled as a parse oracle producing a `Json` AST, respectively as the
  AST of the Python dict that `_write_index_json` dumps.
* SQLite tables are lists of row structures; `dict(row)` is an association
  list keyed by the selected column names, mirroring `sqlite3.Row`.
* Thread-pool completion order (`as_completed`) is unspecified in the
  source; it is modelled as submission order.  All proved properties are
  insensitive to the order of completions.
-/

set_option autoImplicit false

namespace Fipsy

/-- A JSON value as produced by `json.loads` (numbers restricted to the
integers appearing in this development; objects are association lists in
insertion order, with distinct keys as `json.loads` deduplicates). -/
inductive Json where
  | null
  | bool (b : Bool)
  | num (n : Int)
  | str (s : String)
  | arr (xs : List Json)
  | obj (kvs : List (String × Json))

/-- Python exceptions that the embedded code can raise or catch. -/
inductive PyErr where
  /-- `KeyError` from a missing dict key, `d[k]`. -/
  | keyError (k : String)
  /-- `AttributeError`, e.g. calling `.get` or `.items()` on a non-dict. -/
  | attributeError
  /-- `subprocess.CalledProcessError`: the external binary exited non-zero. -/
  | calledProcessError
  /-- `subprocess.TimeoutExpired`: the external call hit its timeout. -/
  | timeoutExpired
  /-- `OSError` while talking to the subprocess. -/
  | osError
  /-- `json.JSONDecodeError`: the fetched bytes are not valid JSON. -/
  | jsonDecodeError
  deriving DecidableEq

/-- Python truthiness of a JSON value (`if not x`). -/
def jTruthy : Json → Bool
  | .null => false
  | .bool b => b
  | .num n => n ≠ 0
  | .str s => s ≠ ""
  | .arr xs => ¬ xs.isEmpty
  | .obj kvs => ¬ kvs.isEmpty

/-- `d.get(k)` on a Python dict modelled as an association list
(first match; embedded dicts have distinct keys). -/
def dictGet {β : Type} (d : List (String × β)) (k : String) : Option β :=
  match d with
  | [] => none
  | (k', v) :: rest => if k' = k then some v else dictGet rest k

/-- `d[k] = v` on a Python dict: overwrite the existing binding or append. -/
def dictInsert {β : Type} (d : List (String × β)) (k : String) (v : β) :
    List (String × β) :=
  match d with
  | [] => [(k, v)]
  | (k', v') :: rest =>
    if k' = k then (k', v) :: rest else (k', v') :: dictInsert rest k v

/-- Python `str.split` with a one-character separator, over the string's
characters: splitting the empty string gives `[""]`, and in general one
segment per separator occurrence plus one. -/
def pySplitChar (sep : Char) : List Char → List (List Char)
  | [] => [[]]
  | c :: cs =>
    match pySplitChar sep cs with
    | [] => [[]]
    | seg :: rest =>
      if c = sep then [] :: seg :: rest else (c :: seg) :: rest

/-- `s.split("/")` for the one-character separator `"/"` used throughout
the source. -/
def pySplitSlash (s : String) : List String :=
  (pySplitChar '/' s.data).map fun cs => ⟨cs⟩

/-- `s.split("/")[-1]`: Python `str.split` never returns an empty list,
so `[-1]` is the last element. -/
def lastSegment (s : String) : String :=
  (pySplitSlash s).getLastD ""

/-! ## State store (`db.py`)

Tables are lists of typed rows.  SQLite guarantees at most one row per
primary key; `ON CONFLICT ... DO UPDATE` updates that row in place,
otherwise the row is inserted.  The embedding updates the first matching
row (under the primary-key invariant there is at most one). -/

/-- A row of the `discovered` table: `node_id TEXT NOT NULL, ipns_key TEXT
NOT NULL, name TEXT, PRIMARY KEY (node_id, ipns_key)`. -/
structure DiscRow where
  node_id : String
  ipns_key : String
  name : Option String
  deriving DecidableEq

/-- A row of the `published` table: `path TEXT PRIMARY KEY, name TEXT NOT
NULL, added TEXT NOT NULL`.  (`name` stores the local naming-key
identifier that the spec's data model calls `key`; `added` is the
timestamp the spec calls `added_at`.) -/
structure PubRow where
  path : String
  name : String
  added : String
  deriving DecidableEq

/-- Does a `discovered` row carry the given primary key? -/
def discMatch (node_id ipns_key : String) (r : DiscRow) : Bool :=
  decide (r.node_id = node_id ∧ r.ipns_key = ipns_key)

/-- `db.upsert_discovered`: `INSERT INTO discovered (node_id, ipns_key,
name) VALUES (?, ?, ?) ON CONFLICT(node_id, ipns_key) DO UPDATE SET
name = excluded.name`. -/
def upsert_discovered (tbl : List DiscRow) (node_id ipns_key : String)
    (name : Option String) : List DiscRow :=
  match tbl with
  | [] => [⟨node_id, ipns_key, name⟩]
  | r :: rest =>
    if r.node_id = node_id ∧ r.ipns_key = ipns_key then
      ⟨r.node_id, r.ipns_key, name⟩ :: rest
    else
      r :: upsert_discovered rest node_id ipns_key name

/-- Does a `published` row have the given path (its primary key)? -/
def pubMatch (path : String) (r : PubRow) : Bool :=
  decide (r.path = path)

/-- `db.upsert_published`: `INSERT INTO published (path, name, added)
VALUES (?, ?, ?) ON CONFLICT(path) DO UPDATE SET name = excluded.name,
added = excluded.added`.  The source computes `added` as
`datetime.now(timezone.utc).isoformat()` at call time; the clock reading
is passed explicitly. -/
def upsert_published (tbl : List PubRow) (path name added : String) :
    List PubRow :=
  match tbl with
  | [] => [⟨path, name, added⟩]
  | r :: rest =>
    if r.path = path then
      ⟨r.path, name, added⟩ :: rest
    else
      r :: upsert_published rest path name added

/-! ## Content service adapter surface (`ipfs.py`) and timeouts -/

/-- `ipfs.DEFAULT_CAT_TIMEOUT = 5` (seconds). -/
def DEFAULT_CAT_TIMEOUT : ℚ := 5

/-- `MANY_PEERS_THRESHOLD = 20` (identical in `commands.py` and
`tui/workers.py`). -/
def MANY_PEERS_THRESHOLD : Nat := 20

/-- `FAST_CAT_TIMEOUT = 2.69` (identical in `commands.py` and
`tui/workers.py`). -/
def FAST_CAT_TIMEOUT : ℚ := 2.69

/-- The adaptive per-peer fetch timeout selection of
`commands._fetch_peer_indexes` (lines 135-136) and
`workers.scan_peers_iter` (lines 125-126):
`cat_timeout = FAST_CAT_TIMEOUT if len(peers) > MANY_PEERS_THRESHOLD else
ipfs.DEFAULT_CAT_TIMEOUT`.  It reads nothing but the peer count. -/
def catTimeoutFor (peerCount : Nat) : ℚ :=
  if peerCount > MANY_PEERS_THRESHOLD then FAST_CAT_TIMEOUT
  else DEFAULT_CAT_TIMEOUT

/-- Python `str()` of a JSON value, as rendered by f-string interpolation
(`f"/ipns/\x7bkey_id\x7d"`) and by sqlite scalar binding; the identity on
strings, which is the only case the specified `dict[str, str]` wire format
produces.  Container renderings are fixed placeholders (no claim and no
realistic document exercises them). -/
def pyStr : Json → String
  | .str s => s
  | .num n => toString n
  | .bool true => "True"
  | .bool false => "False"
  | .null => "None"
  | .arr _ => "[...]"
  | .obj _ => "\x7b...\x7d"

/-- The exception classes caught by both `_fetch_peer_index` variants:
`(subprocess.CalledProcessError, subprocess.TimeoutExpired,
json.JSONDecodeError, OSError)`. -/
def caughtFetchErr : PyErr → Bool
  | .calledProcessError => true
  | .timeoutExpired => true
  | .jsonDecodeError => true
  | .osError => true
  | _ => false

/-- Oracles for the external calls made while fetching one peer's index:
`ipfs.cat_path` (fetch bytes at a path with a timeout), `json.loads`, and
`_resolve_key` (the `ipfs.name_resolve` call with its
`CalledProcessError`/`TimeoutExpired` outcomes collapsed to `none`, as the
source's try/except does; the argument is the f-string rendering of the
declared pointer value). -/
structure FetchEnv where
  cat : String → ℚ → Except PyErr String
  parse : String → Except PyErr Json
  resolve : String → Option String

/-- The index document path fetched for a peer:
`f"/ipns/\x7bpeer_id\x7d/index.json"`. -/
def peerIndexPath (peer_id : String) : String :=
  "/ipns/" ++ peer_id ++ "/index.json"

/-! ## Peer index fetcher (`commands._fetch_peer_index`,
`workers._fetch_peer_index`)

Both variants share their front half verbatim: fetch `index.json`, parse
it, read `data.get("ipns", {})`, return `None` when anything listed is
caught or the pointer map is falsy.  A truthy non-dict `"ipns"` value (or
a non-dict document) raises an uncaught `AttributeError` at `.get` /
`.items()`. -/

/-- Shared front end of both `_fetch_peer_index` variants
(`commands.py` lines 96-109, `workers.py` lines 77-90): `.ok none` is the
silently-skipped peer, `.error` an uncaught exception. -/
def fetchIpnsItems (env : FetchEnv) (peer_id : String) (cat_timeout : ℚ) :
    Except PyErr (Option (List (String × Json))) :=
  match env.cat (peerIndexPath peer_id) cat_timeout with
  | .error e => if caughtFetchErr e then .ok none else .error e
  | .ok raw =>
    match env.parse raw with
    | .error e => if caughtFetchErr e then .ok none else .error e
    | .ok data =>
      match data with
      | .obj kvs =>
        let v := (dictGet kvs "ipns").getD (.obj [])
        if jTruthy v then
          match v with
          | .obj ikvs => .ok (some ikvs)
          | _ => .error .attributeError
        else .ok none
      | _ => .error .attributeError

/-- `workers.PeerEntry`: one declared pointer of one peer. -/
structure PeerEntry where
  peer_id : String
  name : String
  ipns_name : String
  cid : Option String
  deriving DecidableEq

/-- `workers.ScanResult`: the report for a single peer. -/
structure ScanResult where
  peer_id : String
  entries : List PeerEntry
  deriving DecidableEq

/-- `cid = resolved.split("/")[-1] if resolved else None`
(`workers.py` line 101): `None` and the empty string are both falsy. -/
def cidOf : Option String → Option String
  | none => none
  | some r => if r = "" then none else some (lastSegment r)

/-- `workers._fetch_peer_index`: one entry per declared pointer, each
pointer resolved with its own isolated outcome (`as_completed` order over
the resolution pool is modelled as declaration order). -/
def fetch_peer_index_w (env : FetchEnv) (peer_id : String)
    (cat_timeout : ℚ) : Except PyErr (Option ScanResult) :=
  (fetchIpnsItems env peer_id cat_timeout).map <| Option.map fun ikvs =>
    ⟨peer_id, ikvs.map fun nk =>
      ⟨peer_id, nk.1, pyStr nk.2, cidOf (env.resolve (pyStr nk.2))⟩⟩

/-- `commands._fetch_peer_index`: returns
`(peer_id, {name: (key_id, resolved_path_or_none)})` — the resolved path
is kept whole here (the CID slice happens later in `scan`). -/
def fetch_peer_index_c (env : FetchEnv) (peer_id : String)
    (cat_timeout : ℚ) :
    Except PyErr (Option (String × List (String × (String × Option String)))) :=
  (fetchIpnsItems env peer_id cat_timeout).map <| Option.map fun ikvs =>
    (peer_id, ikvs.map fun nk =>
      (nk.1, (pyStr nk.2, env.resolve (pyStr nk.2))))

/-! ## Scan orchestrator (`commands._fetch_peer_indexes`,
`workers.scan_peers_iter`)

`as_completed` over the outer pool is modelled as submission order; every
proved property is insensitive to completion order. -/

/-- The collection loop of `commands._fetch_peer_indexes` at a fixed
timeout: falsy fetcher results are skipped, an uncaught exception from a
worker re-raises out of `future.result()` and the collected list is lost. -/
def fetchPeerIndexesGo (env : FetchEnv) (t : ℚ) :
    List String →
    Except PyErr (List (String × List (String × (String × Option String))))
  | [] => .ok []
  | p :: ps =>
    match fetch_peer_index_c env p t with
    | .error e => .error e
    | .ok none => fetchPeerIndexesGo env t ps
    | .ok (some r) => (fetchPeerIndexesGo env t ps).map (r :: ·)

/-- `commands._fetch_peer_indexes`: fan the fetcher out over all peers
with the adaptive timeout and collect the non-falsy results. -/
def fetch_peer_indexes (env : FetchEnv) (peers : List String) :
    Except PyErr (List (String × List (String × (String × Option String)))) :=
  fetchPeerIndexesGo env (catTimeoutFor peers.length) peers

/-- An event yielded by `workers.scan_peers_iter`. -/
inductive ScanEvent where
  | total (n : Nat)
  | item (r : ScanResult)
  deriving DecidableEq

/-- A state-store mutation (`db.upsert_discovered` call). -/
inductive DbWrite where
  | upsertDiscovered (node_id ipns_key : String) (name : Option String)
  deriving DecidableEq

/-- What a run of a streaming iterator produced: the yielded events, the
state-store writes it performed, and the uncaught exception, if any, that
ended it early. -/
structure ScanOut where
  events : List ScanEvent
  writes : List DbWrite
  err : Option PyErr
  deriving DecidableEq

/-- The per-completion loop of `workers.scan_peers_iter` (lines 132-141):
for each peer whose fetcher produced a result, upsert the self pointer,
upsert one discovered row per entry, and yield the result. -/
def scanGo (env : FetchEnv) (t : ℚ) : List String → ScanOut
  | [] => ⟨[], [], none⟩
  | p :: ps =>
    match fetch_peer_index_w env p t with
    | .error e => ⟨[], [], some e⟩
    | .ok none => scanGo env t ps
    | .ok (some r) =>
      let out := scanGo env t ps
      ⟨.item r :: out.events,
        (DbWrite.upsertDiscovered r.peer_id r.peer_id none ::
          r.entries.map fun en =>
            DbWrite.upsertDiscovered r.peer_id en.ipns_name (some en.name))
          ++ out.writes,
        out.err⟩

/-- `workers.scan_peers_iter`: yield the swarm peer count first, then one
`ScanResult` per peer that produced one.  `peers` is the
`ipfs.swarm_peers()` oracle result. -/
def scan_peers_iter (env : FetchEnv) (peers : List String) : ScanOut :=
  let rest :=
    if peers.isEmpty then (⟨[], [], none⟩ : ScanOut)
    else scanGo env (catTimeoutFor peers.length) peers
  ⟨.total peers.length :: rest.events, rest.writes, rest.err⟩

/-! ## Publish orchestrator (`workers.publish_all_iter`; `commands.publish`
shares the identical row-reading loop and early-return structure, printing
instead of yielding) -/

/-- `workers.PublishResult`: the per-entry publish outcome. -/
structure PublishResult where
  key : String
  ipns_name : String
  cid : Option String
  error : Option String
  deriving DecidableEq

/-- An event yielded by `workers.publish_all_iter`. -/
inductive PubEvent where
  | total (n : Nat)
  | item (r : PublishResult)
  deriving DecidableEq

/-- A content-service invocation made on the publish path. -/
inductive ExtCall where
  | keyList
  | addDirCall (path : String)
  | namePublishKey (cid key : String)
  | addIndexDir
  | namePublishSelf (cid : String)
  deriving DecidableEq

/-- Oracles for a `publish_all_iter` run: the `published` table rows in
the order `db.list_published()` returns them, `ipfs.key_list()`, the
filesystem probe `Path(...).is_dir()`, `ipfs.add_directory` (`none` =
`CalledProcessError`), `ipfs.name_publish(cid, key=key, ttl="1m")`
success, and the two discovery-index calls (`add_directory` on the
scratch directory and `name_publish` under self). -/
structure PubEnv where
  published : List PubRow
  keys : List (String × String)
  isDir : String → Bool
  addDir : String → Option String
  publishOk : String → String → Bool
  idxAddCid : Option String
  idxPublishOk : Bool

/-- `dict(row)` for a row of `SELECT path, name, added FROM published`
(`db.list_published`): an association list keyed by the selected column
names. -/
def rowDict (r : PubRow) : List (String × String) :=
  [("path", r.path), ("name", r.name), ("added", r.added)]

/-- What one iteration of the publish loop does. -/
inductive PubStep where
  | raised (e : PyErr)
  | yielded (res : PublishResult) (calls : List ExtCall)
      (acc : List (String × String))

/-- One iteration of the `for entry in published:` loop of
`workers.publish_all_iter` (lines 196-217): read `entry["key"]` and
`entry["path"]` from the row dict, look the key up in `keys`, probe the
directory, then add and publish, accumulating `published_keys`. -/
def pubStep (env : PubEnv) (r : PubRow) (acc : List (String × String)) :
    PubStep :=
  match dictGet (rowDict r) "key" with
  | none => .raised (.keyError "key")
  | some key =>
    match dictGet (rowDict r) "path" with
    | none => .raised (.keyError "path")
    | some path =>
      match dictGet env.keys key with
      | none => .yielded ⟨key, "", none, some "IPNS name not found"⟩ [] acc
      | some ipns_name =>
        if ipns_name = "" then
          .yielded ⟨key, "", none, some "IPNS name not found"⟩ [] acc
        else if ¬ env.isDir path then
          .yielded ⟨key, ipns_name, none,
            some ("Directory not found: " ++ path)⟩ [] acc
        else
          match env.addDir path with
          | none =>
            .yielded ⟨key, ipns_name, none, some "Publish failed"⟩
              [.addDirCall path] acc
          | some cid =>
            if env.publishOk cid key then
              .yielded ⟨key, ipns_name, some cid, none⟩
                [.addDirCall path, .namePublishKey cid key]
                (dictInsert acc key ipns_name)
            else
              .yielded ⟨key, ipns_name, none, some "Publish failed"⟩
                [.addDirCall path, .namePublishKey cid key] acc

/-- The loop state after processing the remaining rows. -/
structure PubLoopOut where
  events : List PubEvent
  calls : List ExtCall
  acc : List (String × String)
  err : Option PyErr

/-- The `for entry in published:` loop: an uncaught exception aborts the
loop (and the whole generator). -/
def pubGo (env : PubEnv) : List PubRow → List (String × String) → PubLoopOut
  | [], acc => ⟨[], [], acc, none⟩
  | r :: rest, acc =>
    match pubStep env r acc with
    | .raised e => ⟨[], [], acc, some e⟩
    | .yielded res calls acc' =>
      let out := pubGo env rest acc'
      ⟨.item res :: out.events, calls ++ out.calls, out.acc, out.err⟩

/-- What a `publish_all_iter` run produced.  `writes` records state-store
mutations: the source's publish path contains no `db.upsert_*` or
`db.delete_*` call, so every constructed value carries `[]`. -/
structure PubOut where
  events : List PubEvent
  calls : List ExtCall
  writes : List DbWrite
  err : Option PyErr
  deriving DecidableEq

/-- The discovery-index phase after the loop (`workers.py` lines
219-230): skipped when the loop raised or when no entry succeeded;
otherwise `add_directory` on the scratch directory then `name_publish`
under self, each `CalledProcessError` propagating uncaught (the `try`
has only a `finally`). -/
def pubIndexPhase (env : PubEnv) (out : PubLoopOut) :
    List ExtCall × Option PyErr :=
  match out.err with
  | some e => ([], some e)
  | none =>
    if out.acc.isEmpty then ([], none)
    else
      match env.idxAddCid with
      | none => ([.addIndexDir], some .calledProcessError)
      | some cid =>
        ([.addIndexDir, .namePublishSelf cid],
          if env.idxPublishOk then none else some .calledProcessError)

/-- `workers.publish_all_iter`: yield the tracked-entry count, loop over
the rows, then run the discovery-index phase (when at least one entry
succeeded, `_write_index_json` / `_write_index_html` into a scratch
directory, `add_directory`, `name_publish` under self; the scratch
directory is removed in a `finally`, which holds no modelled state). -/
def publish_all_iter (env : PubEnv) : PubOut :=
  let n := env.published.length
  if env.published.isEmpty then ⟨[.total n], [], [], none⟩
  else
    let out := pubGo env env.published []
    let phase := pubIndexPhase env out
    ⟨.total n :: out.events, .keyList :: (out.calls ++ phase.1), [], phase.2⟩

/-! ## Discovery index document (`commands._write_index_json`) and its
re-parse -/

/-- The pointer map as JSON object members. -/
def toJsonPairs (m : List (String × String)) : List (String × Json) :=
  m.map fun kv => (kv.1, Json.str kv.2)

/-- `commands._write_index_json`: `data = {"ipns": keys}` dumped with
`json.dumps`; the byte round trip through the external `json` library is
modelled as the identity on the AST. -/
def indexJsonData (m : List (String × String)) : Json :=
  .obj [("ipns", .obj (toJsonPairs m))]

/-- Read object members back at the `dict[str, str]` type the fetchers
declare for the pointer map. -/
def strItems : List (String × Json) → Option (List (String × String))
  | [] => some []
  | (k, .str v) :: rest => (strItems rest).map (fun l => (k, v) :: l)
  | _ => none

/-- The fetchers' parsing stage (`data.get("ipns", {})`,
`commands.py` line 107) read at the declared `dict[str, str]` type. -/
def parseIpnsMapping (data : Json) : Option (List (String × String)) :=
  match data with
  | .obj kvs =>
    match (dictGet kvs "ipns").getD (.obj []) with
    | .obj ikvs => strItems ikvs
    | _ => none
  | _ => none

/-! ## Pinned check (`ipfs.is_pinned`) -/

/-- `ipfs.is_pinned`: resolve the pointer (any exception inside the `try`
→ `False`; the resolution outcome is the oracle argument, `none` meaning
the `name_resolve` call raised), slice the last path segment, and test
membership in the pinned set. -/
def is_pinned (resolved : Option String) (pinned_cids : List String) : Bool :=
  match resolved with
  | none => false
  | some r => pinned_cids.contains (lastSegment r)

/-! ## Concrete environments used to evaluate the embedded code -/

/-- A `published` table of three tracked rows — `/data/b` missing on
disk, every naming key present, every external call succeeding — the
scenario of three tracked entries with exactly one missing directory. -/
def envC1 : PubEnv :=
  ⟨[⟨"/data/a", "k1", "2024-01-01T00:00:00+00:00"⟩,
    ⟨"/data/b", "k2", "2024-01-02T00:00:00+00:00"⟩,
    ⟨"/data/c", "k3", "2024-01-03T00:00:00+00:00"⟩],
   [("k1", "ipnsA"), ("k2", "ipnsB"), ("k3", "ipnsC")],
   fun p => p ≠ "/data/b",
   fun p => some ("Qm-" ++ p),
   fun _ _ => true,
   some "QmIdx", true⟩

/-- Two peers: `peerBad`'s index fetch times out, `peerGood` serves an
index declaring one resolvable pointer. -/
def envC2 : FetchEnv :=
  ⟨fun path _ =>
      if path = peerIndexPath "peerBad" then .error .timeoutExpired
      else .ok "rawG",
   fun raw =>
      if raw = "rawG" then .ok (indexJsonData [("site", "ptrS")])
      else .error .jsonDecodeError,
   fun _ => some "/ipfs/QmS"⟩

/-- One peer serving an index declaring pointers
`{"docs": "ptrA", "blog": "ptrB"}` where `ptrA` resolves and `ptrB`
times out. -/
def envC3 : FetchEnv :=
  ⟨fun path _ =>
      if path = peerIndexPath "peer1" then .ok "raw1"
      else .error .timeoutExpired,
   fun raw =>
      if raw = "raw1" then
        .ok (indexJsonData [("docs", "ptrA"), ("blog", "ptrB")])
      else .error .jsonDecodeError,
   fun s => if s = "ptrA" then some "/ipfs/QmA" else none⟩

/-- An empty `published` table; every oracle would fail if consulted. -/
def envC7 : PubEnv :=
  ⟨[], [], fun _ => false, fun _ => none, fun _ _ => false, none, false⟩

end Fipsy

namespace Fipsy

/-! ## Helper lemmas -/

/-- Reading string-typed members back from the members the index writer
produced is the identity. -/
theorem strItems_toJsonPairs (l : List (String × String)) :
    strItems (toJsonPairs l) = some l := by
  induction l with
  | nil => rfl
  | cons kv rest ih =>
    obtain ⟨k, v⟩ := kv
    simp [toJsonPairs, strItems] at *
    simp [ih]

/-- Every event produced by the scan loop body is a per-peer item. -/
theorem scanGo_events_are_items (env : FetchEnv) (t : ℚ) (ps : List String) :
    ∀ ev ∈ (scanGo env t ps).events, ∃ r, ev = ScanEvent.item r := by
  induction ps with
  | nil => simp [scanGo]
  | cons p ps ih =>
    intro ev hev
    simp only [scanGo] at hev
    rcases hf : fetch_peer_index_w env p t with e | o
    · rw [hf] at hev
      simp at hev
    · rw [hf] at hev
      cases o with
      | none => exact ih ev hev
      | some r =>
        simp at hev
        rcases hev with rfl | hev
        · exact ⟨r, rfl⟩
        · exact ih ev hev

/-- Every event produced by the publish loop body is a per-entry item. -/
theorem pubGo_events_are_items (env : PubEnv) (rows : List PubRow) :
    ∀ acc, ∀ ev ∈ (pubGo env rows acc).events, ∃ r, ev = PubEvent.item r := by
  induction rows with
  | nil => simp [pubGo]
  | cons r rest ih =>
    intro acc ev hev
    simp only [pubGo] at hev
    cases hs : pubStep env r acc with
    | raised e =>
      rw [hs] at hev
      simp at hev
    | yielded res calls acc' =>
      rw [hs] at hev
      simp at hev
      rcases hev with rfl | hev
      · exact ⟨res, rfl⟩
      · exact ih acc' ev hev

end Fipsy

namespace Fipsy

/-! ## Claim theorems -/

/-- C1 (code bug): publishing three tracked entries where exactly one has
a missing directory is claimed to yield two success outcomes, one
not-found outcome, and a continuing loop.  The code instead reads
`entry["key"]` from rows that `db.list_published` returns with keys
`path`/`name`/`added` (`SELECT path, name, added`), so the very first
loop iteration raises `KeyError('key')` and the whole batch aborts after
the total event, with zero per-entry outcomes. -/
theorem publish_keyerror_aborts_batch :
    dictGet (rowDict ⟨"/data/a", "k1", "2024-01-01T00:00:00+00:00"⟩) "key"
        = none ∧
    publish_all_iter envC1 =
      ⟨[.total 3], [.keyList], [], some (.keyError "key")⟩ ∧
    (publish_all_iter envC1).events.countP
      (fun ev => match ev with | .item _ => true | _ => false) = 0 :=
  ⟨rfl, rfl, rfl⟩

/-- C4: the discovery index document built by the publish orchestrator
(`_write_index_json`: `{"ipns": keys}`), fed back through the peer index
fetcher's parsing stage (`data.get("ipns", {})` read at its declared
`dict[str, str]` type), yields exactly the published mapping. -/
theorem discovery_index_roundtrip (m : List (String × String)) :
    parseIpnsMapping (indexJsonData m) = some m := by
  simp [parseIpnsMapping, indexJsonData, dictGet, strItems_toJsonPairs]

/-- C7: with zero tracked published entries, `publish_all_iter` yields
only the "nothing to publish" terminal shape (the zero total), makes no
content-service call, performs no state-store write, and raises nothing.
(The CLI `publish` shares the structure: its `ipfs.key_list()` call also
sits after the early return, and its `db.init_db()` is create-if-absent
schema creation only.) -/
theorem publish_empty_no_external_calls (env : PubEnv)
    (h : env.published = []) :
    publish_all_iter env = ⟨[.total 0], [], [], none⟩ := by
  simp [publish_all_iter, h]

/-- Witness for C7 at a concrete empty-table environment. -/
theorem publish_empty_no_external_calls_witness :
    envC7.published = [] ∧
    publish_all_iter envC7 = ⟨[.total 0], [], [], none⟩ :=
  ⟨rfl, publish_empty_no_external_calls envC7 rfl⟩

/-- C8: the per-peer fetch timeout is a pure function of the swarm peer
count alone — above the threshold the short timeout, at or below it the
longer default, equal counts always giving equal timeouts — and the
orchestrators consult nothing but the peer count to choose it. -/
theorem timeout_pure_function_of_peer_count :
    (∀ peers : List String, MANY_PEERS_THRESHOLD < peers.length →
      catTimeoutFor peers.length = FAST_CAT_TIMEOUT) ∧
    (∀ peers : List String, peers.length ≤ MANY_PEERS_THRESHOLD →
      catTimeoutFor peers.length = DEFAULT_CAT_TIMEOUT) ∧
    (∀ peers₁ peers₂ : List String, peers₁.length = peers₂.length →
      catTimeoutFor peers₁.length = catTimeoutFor peers₂.length) ∧
    (∀ (env : FetchEnv) (peers : List String),
      fetch_peer_indexes env peers =
        fetchPeerIndexesGo env (catTimeoutFor peers.length) peers) ∧
    FAST_CAT_TIMEOUT < DEFAULT_CAT_TIMEOUT := by
  refine ⟨?_, ?_, ?_, ?_, ?_⟩
  · intro peers hgt
    simp [catTimeoutFor, hgt]
  · intro peers hle
    simp [catTimeoutFor, Nat.not_lt.mpr hle]
  · intro peers₁ peers₂ hlen
    rw [hlen]
  · intro env peers
    rfl
  · norm_num [FAST_CAT_TIMEOUT, DEFAULT_CAT_TIMEOUT]

/-- Witness for C8: 21 peers get the short timeout, 1 peer the default. -/
theorem timeout_pure_function_of_peer_count_witness :
    catTimeoutFor (List.replicate 21 "p").length = FAST_CAT_TIMEOUT ∧
    catTimeoutFor ["p"].length = DEFAULT_CAT_TIMEOUT :=
  ⟨timeout_pure_function_of_peer_count.1 (List.replicate 21 "p") (by decide),
   timeout_pure_function_of_peer_count.2.1 ["p"] (by decide)⟩

/-- C10: `is_pinned` is total — every resolution failure (the `none`
oracle outcome, covering every exception the broad `except` catches)
returns `False`, and a successful resolution returns `True` exactly when
the last path segment of the resolved path is in the pinned set. -/
theorem is_pinned_total_never_raises :
    (∀ pinned_cids : List String, is_pinned none pinned_cids = false) ∧
    ∀ (r : String) (pinned_cids : List String),
      (is_pinned (some r) pinned_cids = true ↔
        lastSegment r ∈ pinned_cids) := by
  refine ⟨fun _ => rfl, fun r pinned_cids => ?_⟩
  simp [is_pinned]

end Fipsy

namespace Fipsy

/-- C5: under the `PRIMARY KEY (node_id, ipns_key)` invariant (at most
one row per pair), upserting the same pair twice — with any two display
names — leaves exactly one stored row for the pair, carrying the display
name of the later upsert. -/
theorem upsert_discovered_latest_wins
    (tbl : List DiscRow) (node_id ipns_key : String)
    (name₁ name₂ : Option String)
    (h : (tbl.filter (discMatch node_id ipns_key)).length ≤ 1) :
    (upsert_discovered (upsert_discovered tbl node_id ipns_key name₁)
        node_id ipns_key name₂).filter (discMatch node_id ipns_key) =
      [⟨node_id, ipns_key, name₂⟩] := by
  induction tbl with
  | nil =>
    simp [upsert_discovered, discMatch, List.filter]
  | cons r rest ih =>
    obtain ⟨rn, rk, rname⟩ := r
    by_cases hr : rn = node_id ∧ rk = ipns_key
    · obtain ⟨h1, h2⟩ := hr
      subst h1
      subst h2
      have hrest : rest.filter (discMatch rn rk) = [] := by
        rw [List.filter_cons_of_pos (by simp [discMatch])] at h
        simp only [List.length_cons] at h
        have h0 : (rest.filter (discMatch rn rk)).length = 0 := by omega
        exact List.length_eq_zero.mp h0
      simp [upsert_discovered, discMatch, List.filter_cons, hrest]
    · have hm : discMatch node_id ipns_key ⟨rn, rk, rname⟩ = false := by
        simp only [discMatch]
        exact decide_eq_false hr
      rw [List.filter_cons_of_neg (by simp [hm])] at h
      simp only [upsert_discovered, if_neg hr]
      rw [List.filter_cons_of_neg (by simp [hm])]
      exact ih h

/-- Witness for C5: a table holding an unrelated row, the pair
`("n1", "k1")` upserted with `"alice"` then `"bob"`. -/
theorem upsert_discovered_latest_wins_witness :
    (([⟨"n0", "k0", some "x"⟩] : List DiscRow).filter
        (discMatch "n1" "k1")).length ≤ 1 ∧
    (upsert_discovered
        (upsert_discovered [⟨"n0", "k0", some "x"⟩] "n1" "k1" (some "alice"))
        "n1" "k1" (some "bob")).filter (discMatch "n1" "k1") =
      [⟨"n1", "k1", some "bob"⟩] :=
  ⟨by decide,
   upsert_discovered_latest_wins [⟨"n0", "k0", some "x"⟩] "n1" "k1"
     (some "alice") (some "bob") (by decide)⟩

/-- C6: under the `path TEXT PRIMARY KEY` invariant, upserting the same
path twice overwrites the stored naming key (column `name`) and the
`added` timestamp with the later call's values, and never creates a
second row for the path (the second upsert also leaves the table length
unchanged). -/
theorem upsert_published_no_duplicate
    (tbl : List PubRow) (path : String) (name₁ added₁ name₂ added₂ : String)
    (h : (tbl.filter (pubMatch path)).length ≤ 1) :
    (upsert_published (upsert_published tbl path name₁ added₁)
        path name₂ added₂).filter (pubMatch path) =
      [⟨path, name₂, added₂⟩] ∧
    (upsert_published (upsert_published tbl path name₁ added₁)
        path name₂ added₂).length =
      (upsert_published tbl path name₁ added₁).length := by
  induction tbl with
  | nil =>
    simp [upsert_published, pubMatch, List.filter]
  | cons r rest ih =>
    obtain ⟨rp, rn, ra⟩ := r
    by_cases hr : rp = path
    · subst hr
      have hrest : rest.filter (pubMatch rp) = [] := by
        rw [List.filter_cons_of_pos (by simp [pubMatch])] at h
        simp only [List.length_cons] at h
        have h0 : (rest.filter (pubMatch rp)).length = 0 := by omega
        exact List.length_eq_zero.mp h0
      simp [upsert_published, pubMatch, List.filter_cons, hrest]
    · have hm : pubMatch path ⟨rp, rn, ra⟩ = false := by
        simp only [pubMatch]
        exact decide_eq_false hr
      rw [List.filter_cons_of_neg (by simp [hm])] at h
      obtain ⟨ih1, ih2⟩ := ih h
      constructor
      · simp only [upsert_published, if_neg hr]
        rw [List.filter_cons_of_neg (by simp [hm])]
        exact ih1
      · simp only [upsert_published, if_neg hr, List.length_cons]
        omega

/-- Witness for C6: one unrelated row, `/d` upserted twice. -/
theorem upsert_published_no_duplicate_witness :
    (([⟨"/other", "ko", "t0"⟩] : List PubRow).filter
        (pubMatch "/d")).length ≤ 1 ∧
    ((upsert_published (upsert_published [⟨"/other", "ko", "t0"⟩] "/d" "k1"
        "2024-01-01") "/d" "k2" "2024-02-02").filter (pubMatch "/d") =
      [⟨"/d", "k2", "2024-02-02"⟩] ∧
    (upsert_published (upsert_published [⟨"/other", "ko", "t0"⟩] "/d" "k1"
        "2024-01-01") "/d" "k2" "2024-02-02").length =
      (upsert_published [⟨"/other", "ko", "t0"⟩] "/d" "k1"
        "2024-01-01").length) :=
  ⟨by decide,
   upsert_published_no_duplicate [⟨"/other", "ko", "t0"⟩] "/d" "k1"
     "2024-01-01" "k2" "2024-02-02" (by decide)⟩

end Fipsy

namespace Fipsy

/-- C2: a peer whose index fetch or parse fails with any of the listed
failure modes (process failure, timeout, malformed JSON) yields no result
(`.ok none`: silently skipped, zero entries), and removing that peer from
the collection loop changes nothing — every other peer's result is
collected exactly as without it. -/
theorem peer_fetch_failure_isolated
    (env : FetchEnv) (t : ℚ) (p : String) (e : PyErr)
    (he : e = .calledProcessError ∨ e = .timeoutExpired ∨
      e = .jsonDecodeError)
    (hfail : env.cat (peerIndexPath p) t = .error e ∨
      ∃ raw, env.cat (peerIndexPath p) t = .ok raw ∧
        env.parse raw = .error e) :
    fetch_peer_index_c env p t = .ok none ∧
    ∀ xs ys : List String,
      fetchPeerIndexesGo env t (xs ++ p :: ys) =
        fetchPeerIndexesGo env t (xs ++ ys) := by
  have hnone : fetch_peer_index_c env p t = .ok none := by
    rcases hfail with hc | ⟨raw, hc, hp⟩
    · rcases he with rfl | rfl | rfl <;>
        simp [fetch_peer_index_c, fetchIpnsItems, hc, caughtFetchErr,
          Except.map]
    · rcases he with rfl | rfl | rfl <;>
        simp [fetch_peer_index_c, fetchIpnsItems, hc, hp, caughtFetchErr,
          Except.map]
  refine ⟨hnone, ?_⟩
  intro xs ys
  induction xs with
  | nil => simp [fetchPeerIndexesGo, hnone]
  | cons x xs ih =>
    cases hx : fetch_peer_index_c env x t with
    | error e' => simp [fetchPeerIndexesGo, hx]
    | ok o =>
      cases o with
      | none => simp [fetchPeerIndexesGo, hx, ih]
      | some r => simp [fetchPeerIndexesGo, hx, ih]

/-- Witness for C2: `peerBad` times out, `peerGood` is collected the
same with or without `peerBad` in the scan. -/
theorem peer_fetch_failure_isolated_witness :
    fetch_peer_index_c envC2 "peerBad" DEFAULT_CAT_TIMEOUT = .ok none ∧
    fetchPeerIndexesGo envC2 DEFAULT_CAT_TIMEOUT ["peerGood", "peerBad"] =
      fetchPeerIndexesGo envC2 DEFAULT_CAT_TIMEOUT ["peerGood"] := by
  have h := peer_fetch_failure_isolated envC2 DEFAULT_CAT_TIMEOUT "peerBad"
    .timeoutExpired (Or.inr (Or.inl rfl)) (Or.inl rfl)
  exact ⟨h.1, h.2 ["peerGood"] []⟩

/-- C3: a peer index declaring a non-empty string-valued pointer map
produces exactly one output entry per declared pointer, in declaration
order, pairing the display name with the pointer name and
`cidOf`-extracted content id, where a failed or timed-out resolution
(oracle `none`) is retained as a null content id rather than dropped. -/
theorem one_entry_per_declared_pointer
    (env : FetchEnv) (p raw : String) (t : ℚ) (m : List (String × String))
    (hm : m ≠ [])
    (hc : env.cat (peerIndexPath p) t = .ok raw)
    (hp : env.parse raw = .ok (indexJsonData m)) :
    fetch_peer_index_w env p t =
      .ok (some ⟨p, m.map fun nk =>
        ⟨p, nk.1, nk.2, cidOf (env.resolve nk.2)⟩⟩) ∧
    (m.map fun nk =>
      (⟨p, nk.1, nk.2, cidOf (env.resolve nk.2)⟩ : PeerEntry)).length =
      m.length := by
  refine ⟨?_, by simp⟩
  have hne : (toJsonPairs m).isEmpty = false := by
    cases m with
    | nil => exact absurd rfl hm
    | cons kv rest => rfl
  simp only [fetch_peer_index_w, fetchIpnsItems, hc, hp, indexJsonData,
    dictGet, jTruthy, hne, toJsonPairs, Except.map, Option.map,
    Option.getD, if_pos, List.map_map, Function.comp]
  simp [hm, pyStr, List.map_map, Function.comp]

/-- Witness for C3: the spec's example — pointers
`{"docs": "ptrA", "blog": "ptrB"}`, `ptrA` resolving to `/ipfs/QmA`,
`ptrB` timing out — yields exactly two entries, one with content id
`QmA`, one with null. -/
theorem one_entry_per_declared_pointer_witness :
    (([("docs", "ptrA"), ("blog", "ptrB")] : List (String × String)) ≠ []) ∧
    fetch_peer_index_w envC3 "peer1" DEFAULT_CAT_TIMEOUT =
      .ok (some ⟨"peer1", [⟨"peer1", "docs", "ptrA", some "QmA"⟩,
        ⟨"peer1", "blog", "ptrB", none⟩]⟩) := by
  have h := one_entry_per_declared_pointer envC3 "peer1" "raw1"
    DEFAULT_CAT_TIMEOUT [("docs", "ptrA"), ("blog", "ptrB")]
    (by simp) rfl rfl
  exact ⟨by simp, h.1⟩

/-- C9: in both streaming iterators, the total count is the first event
emitted and every other event in the stream is a per-item result that
comes after it. -/
theorem total_emitted_before_items :
    (∀ (env : FetchEnv) (peers : List String), ∃ rest,
      (scan_peers_iter env peers).events =
        ScanEvent.total peers.length :: rest ∧
      ∀ ev ∈ rest, ∃ r, ev = ScanEvent.item r) ∧
    (∀ env : PubEnv, ∃ rest,
      (publish_all_iter env).events =
        PubEvent.total env.published.length :: rest ∧
      ∀ ev ∈ rest, ∃ r, ev = PubEvent.item r) := by
  constructor
  · intro env peers
    by_cases hp : peers.isEmpty
    · refine ⟨[], ?_, by simp⟩
      simp [scan_peers_iter, hp]
    · refine ⟨(scanGo env (catTimeoutFor peers.length) peers).events, ?_,
        scanGo_events_are_items env (catTimeoutFor peers.length) peers⟩
      simp [scan_peers_iter, hp]
  · intro env
    by_cases hp : env.published.isEmpty
    · refine ⟨[], ?_, by simp⟩
      have h0 : env.published.length = 0 := by
        simpa [List.length_eq_zero] using List.isEmpty_iff.mp hp
      simp [publish_all_iter, hp, h0]
    · refine ⟨(pubGo env env.published []).events, ?_,
        pubGo_events_are_items env env.published []⟩
      simp [publish_all_iter, hp]

/-- Witness for C9 at concrete environments: one peer scan and the
three-row publish environment both start with their total. -/
theorem total_emitted_before_items_witness :
    (∃ rest, (scan_peers_iter envC2 ["peerGood"]).events =
      ScanEvent.total 1 :: rest ∧
      ∀ ev ∈ rest, ∃ r, ev = ScanEvent.item r) ∧
    ∃ rest, (publish_all_iter envC7).events = PubEvent.total 0 :: rest ∧
      ∀ ev ∈ rest, ∃ r, ev = PubEvent.item r :=
  ⟨total_emitted_before_items.1 envC2 ["peerGood"],
   total_emitted_before_items.2 envC7⟩

end Fipsy
